import Mathlib

/-!
Shallow embedding of the `omst` crate: the shared `Permissions` type
(`src/lib.rs`), the POSIX classifier and `/etc/login.defs` parser
(`src/shadow.rs`), and the Windows classifier (`src/winapi.rs`).

Bytes are modelled as `Nat` (values 0..255); byte strings as `List Nat`.
`uid_t` is the unsigned 32-bit UID domain, so parsed UIDs are `Nat`
values below `2^32`.
-/

set_option autoImplicit false

/-- Bytes of a string literal (ASCII), mirroring Rust byte-string literals. -/
def strBytes (s : String) : List Nat :=
  s.data.map Char.toNat

/-- Decidable equality for `Except`, so that concrete classifier and
parser results can be checked by evaluation. -/
instance {ε α : Type} [DecidableEq ε] [DecidableEq α] :
    DecidableEq (Except ε α) := fun x y =>
  match x, y with
  | .ok a, .ok b =>
    match decEq a b with
    | .isTrue h => .isTrue (h ▸ rfl)
    | .isFalse h => .isFalse fun hc => h (by cases hc; rfl)
  | .ok _, .error _ => .isFalse fun hc => Except.noConfusion hc
  | .error _, .ok _ => .isFalse fun hc => Except.noConfusion hc
  | .error a, .error b =>
    match decEq a b with
    | .isTrue h => .isTrue (h ▸ rfl)
    | .isFalse h => .isFalse fun hc => h (by cases hc; rfl)

/-! ## `Permissions` (src/lib.rs) -/

/-- `Permissions` from `src/lib.rs`: `Guest = b'%'`, `User = b'$'`,
`System = b'@'`, `Absolute = b'#'` (explicit discriminants). -/
inductive Permissions
  | Guest
  | User
  | System
  | Absolute
deriving DecidableEq

/-- `Permissions::byte`: `self as u8`, i.e. the explicit discriminant
(`b'%' = 37`, `b'$' = 36`, `b'@' = 64`, `b'#' = 35`). -/
def Permissions.byte : Permissions → Nat
  | .Guest => 37
  | .User => 36
  | .System => 64
  | .Absolute => 35

/-- `impl fmt::Display for Permissions` (src/lib.rs lines 83-92),
including its exact spelling of the last arm. -/
def Permissions.display : Permissions → String
  | .Guest => "guest"
  | .User => "user"
  | .System => "system"
  | .Absolute => "aboslute"

/-- The strict comparison produced by `#[derive(PartialOrd, Ord)]` on the
fieldless enum `Permissions`: Rust's derive compares the discriminant
values, which here are the explicit symbolic bytes. -/
def permLtB (a b : Permissions) : Bool :=
  a.byte < b.byte

/-- `ResultExt::byte` for `Result<Permissions, Error>` (src/lib.rs lines
121-125): `self.map_or(b'?', Permissions::byte)`, with `b'?' = 63`.
The error type is irrelevant to the returned byte. -/
def ResultExt.byte {E : Type} : Except E Permissions → Nat
  | .ok p => p.byte
  | .error _ => 63

/-! ## POSIX classifier data model (src/shadow.rs) -/

/-- `UidRange` from `src/shadow.rs`. -/
inductive UidRange
  | AboveMax
  | InRange
  | BelowMin
  | Zero
deriving DecidableEq

/-- `impl From<UidRange> for Permissions` (src/shadow.rs lines 25-35). -/
def UidRange.toPermissions : UidRange → Permissions
  | .AboveMax => .Guest
  | .InRange => .User
  | .BelowMin => .System
  | .Zero => .Absolute

/-- `Operation` from `src/shadow.rs`: which file operation failed. -/
inductive Operation
  | Open
  | Read
deriving DecidableEq

/-- `Def` from `src/shadow.rs`: which definition a line updates. -/
inductive Def
  | Min
  | Max
deriving DecidableEq

/-- `impl fmt::Display for Def` (src/shadow.rs lines 64-71). -/
def Def.display : Def → String
  | .Min => "UID_MIN"
  | .Max => "UID_MAX"

/-- `Problem` from `src/shadow.rs` lines 74-87. -/
inductive Problem
  | Missing
  | Empty
  | Invalid (data : List Nat)
deriving DecidableEq

/-- `Error` from `src/shadow.rs`. The `io::Error` payload of `LoginDefs`
is an opaque OS value and is omitted from the model. -/
inductive Error
  | LoginDefs (operation : Operation)
  | InvalidDef (d : Def) (problem : Problem)
deriving DecidableEq

/-! ## `/etc/login.defs` parser (src/shadow.rs, `login_defs_uid_range`) -/

/-- `u8::is_ascii_whitespace`: space, horizontal tab, line feed,
form feed, carriage return. -/
def isWsB (b : Nat) : Bool :=
  b = 32 || b = 9 || b = 10 || b = 12 || b = 13

/-- `slice::iter().position(p)`: index of the first byte satisfying `p`. -/
def posIdx (p : Nat → Bool) : List Nat → Option Nat
  | [] => none
  | b :: bs => if p b then some 0 else (posIdx p bs).map (· + 1)

/-- `buf.iter().rposition(|b| *b == b'#')`: index of the last `'#'` (35). -/
def rposHash : List Nat → Option Nat
  | [] => none
  | b :: bs =>
    match rposHash bs with
    | some i => some (i + 1)
    | none => if b = 35 then some 0 else none

/-- `atoi::atoi::<libc::uid_t>` on the value token: the whole slice must be
decimal digits, nonempty, accumulated with overflow checking against the
`uid_t` (u32) domain. -/
def atoiAux (acc : Nat) : List Nat → Option Nat
  | [] => some acc
  | b :: bs =>
    if 48 ≤ b ∧ b ≤ 57 then
      let acc2 := acc * 10 + (b - 48)
      if acc2 < 4294967296 then atoiAux acc2 bs else none
    else none

/-- `atoi` on a byte slice; empty input yields `none`. -/
def atoi (l : List Nat) : Option Nat :=
  if l.isEmpty then none else atoiAux 0 l

/-- Parser state: the last successfully parsed `UID_MIN` / `UID_MAX`. -/
structure St where
  min? : Option Nat
  max? : Option Nat
deriving DecidableEq

/-- The line-loop state update: `min = Some(id)` resp. `max = Some(id)`. -/
def updateSt (st : St) : Def → Nat → St
  | .Min, n => { st with min? := some n }
  | .Max, n => { st with max? := some n }

/-- `key == b"UID_MIN"` / `b"UID_MAX"` dispatch (exact byte comparison);
any other key is ignored. -/
def keyOf (key : List Nat) : Option Def :=
  if key = strBytes "UID_MIN" then some Def.Min
  else if key = strBytes "UID_MAX" then some Def.Max
  else none

/-- One iteration of the loop body of `login_defs_uid_range` after comment
stripping (src/shadow.rs lines 185-231): skip leading whitespace, split
the key at the first whitespace run, dispatch on the key, locate the
value token, and parse it. -/
def processStripped (st : St) (buf0 : List Nat) : Except Error St :=
  match posIdx (fun b => !isWsB b) buf0 with
  | none => .ok st
  | some keyPos =>
    let buf1 := buf0.drop keyPos
    let parts :=
      match posIdx isWsB buf1 with
      | some spacePos => (buf1.take spacePos, buf1.drop spacePos)
      | none => (buf1, ([] : List Nat))
    match keyOf parts.1 with
    | none => .ok st
    | some d =>
      match posIdx (fun b => !isWsB b) parts.2 with
      | none => .error (.InvalidDef d .Empty)
      | some valPos =>
        let buf2 := parts.2.drop valPos
        let val :=
          match posIdx isWsB buf2 with
          | some endPos => buf2.take endPos
          | none => buf2
        match atoi val with
        | some id => .ok (updateSt st d id)
        | none => .error (.InvalidDef d (.Invalid val))

/-- One iteration of the loop body of `login_defs_uid_range` on a raw
line: first discard everything from the last `'#'` onward
(src/shadow.rs lines 180-184), then process the remainder. -/
def processLine (st : St) (l : List Nat) : Except Error St :=
  processStripped st
    (match rposHash l with
     | some i => l.take i
     | none => l)

/-- The loop of `login_defs_uid_range` over the file's lines: on
end-of-input, `min` is checked first, then `max`, each absence reported
as `InvalidDef` with `Problem::Empty` (src/shadow.rs lines 161-177). -/
def runLines : St → List (List Nat) → Except Error (Nat × Nat)
  | st, [] =>
    match st.min? with
    | none => .error (.InvalidDef .Min .Empty)
    | some mn =>
      match st.max? with
      | none => .error (.InvalidDef .Max .Empty)
      | some mx => .ok (mn, mx)
  | st, l :: ls =>
    match processLine st l with
    | .error e => .error e
    | .ok st2 => runLines st2 ls

/-- `BufReader::read_until(b'\n')`: one chunk up to and including the
next newline, plus the remainder. -/
def takeLine : List Nat → (List Nat × List Nat)
  | [] => ([], [])
  | b :: bs =>
    if b = 10 then ([10], bs)
    else
      let r := takeLine bs
      (b :: r.1, r.2)

/-- Fuelled splitting of the file's bytes into `read_until` chunks. -/
def splitLinesAux : Nat → List Nat → List (List Nat)
  | 0, _ => []
  | _, [] => []
  | fuel + 1, input =>
    let r := takeLine input
    r.1 :: splitLinesAux fuel r.2

/-- All `read_until(b'\n')` chunks of the file, in order; the loop ends
when a read returns zero bytes. -/
def splitLines (input : List Nat) : List (List Nat) :=
  splitLinesAux input.length input

/-- `login_defs_uid_range` (src/shadow.rs lines 153-232) over the bytes of
`/etc/login.defs`. -/
def login_defs_uid_range (input : List Nat) : Except Error (Nat × Nat) :=
  runLines ⟨none, none⟩ (splitLines input)

/-! ## POSIX classifier (src/shadow.rs, `omst`) -/

/-- `omst` from `src/shadow.rs` lines 254-269, with the effective UID and
the config file's contents (`none` models a file that cannot be opened)
passed explicitly. -/
def omst (eff : Nat) (file : Option (List Nat)) : Except Error UidRange :=
  if eff = 0 then
    .ok .Zero
  else
    match file with
    | none => .error (.LoginDefs .Open)
    | some bytes =>
      match login_defs_uid_range bytes with
      | .error e => .error e
      | .ok (mn, mx) =>
        .ok (if eff < mn then .BelowMin
             else if mx < eff then .AboveMax
             else .InRange)

/-! ## Windows classifier (src/winapi.rs) -/

/-- `Priv` from `src/winapi.rs`. -/
inductive Priv
  | Guest
  | User
  | Admin
deriving DecidableEq

/-- `impl From<Priv> for Permissions` (src/winapi.rs lines 31-40). -/
def Priv.toPermissions : Priv → Permissions
  | .Guest => .Guest
  | .User => .User
  | .Admin => .Absolute

/-- `Operation` from `src/winapi.rs`. -/
inductive WinOperation
  | GetUserName
  | NetUserGetInfo
deriving DecidableEq

/-- `Error` from `src/winapi.rs`; the `io::Error` payload is opaque and
omitted, the invalid privilege code is kept. -/
inductive WinError
  | GetPriv (operation : WinOperation)
  | InvalidPriv (data : Nat)
deriving DecidableEq

/-- Observable outcome of one run of the Windows `omst`: a value, an
error, or an abnormal process termination (`abort`). -/
inductive WinOutcome
  | ok (p : Priv)
  | err (e : WinError)
  | aborted
deriving DecidableEq

/-- OS oracle for one run: whether `GetUserNameW` succeeds, the
`NetUserGetInfo` status (0 = success, allocating the record), the
`usri1_priv` field of the allocated record, and the status
`NetApiBufferFree` would return. -/
structure WinEnv where
  userNameOk : Bool
  netStatus : Nat
  priv : Nat
  freeStatus : Nat

/-- Outcome of a run together with how many times `NetApiBufferFree` was
invoked on the user-info record. -/
structure WinTrace where
  outcome : WinOutcome
  freeCalls : Nat
deriving DecidableEq

/-- `USER_PRIV_GUEST` -/
def USER_PRIV_GUEST : Nat := 0
/-- `USER_PRIV_USER` -/
def USER_PRIV_USER : Nat := 1
/-- `USER_PRIV_ADMIN` -/
def USER_PRIV_ADMIN : Nat := 2

/-- `omst` from `src/winapi.rs` lines 137-172. `UserInfoPtr`'s `Drop`
(lines 106-121) runs when the wrapper leaves scope on each exit path
taken after its creation: it frees a non-null record exactly once and
calls `abort()` if `NetApiBufferFree` returns nonzero. Before the
`NetUserGetInfo` call succeeds the wrapped pointer is null and `Drop`
frees nothing. -/
def winOmst (env : WinEnv) : WinTrace :=
  if env.userNameOk = false then
    ⟨.err (.GetPriv .GetUserName), 0⟩
  else if env.netStatus ≠ 0 then
    ⟨.err (.GetPriv .NetUserGetInfo), 0⟩
  else
    let res : WinOutcome :=
      if env.priv = USER_PRIV_ADMIN then .ok .Admin
      else if env.priv = USER_PRIV_GUEST then .ok .Guest
      else if env.priv = USER_PRIV_USER then .ok .User
      else .err (.InvalidPriv env.priv)
    if env.freeStatus ≠ 0 then ⟨.aborted, 1⟩ else ⟨res, 1⟩

/-! ## Helper lemmas -/

/-- A hash-free byte list has no last-`'#'` position. -/
theorem rposHash_eq_none {l : List Nat} (h : ∀ b ∈ l, b ≠ 35) :
    rposHash l = none := by
  induction l with
  | nil => rfl
  | cons b bs ih =>
    simp only [rposHash, ih fun x hx => h x (List.mem_cons_of_mem _ hx)]
    simp [h b (List.mem_cons_self _ _)]

/-- With a hash-free suffix, the last `'#'` of `a ++ '#' :: s` sits right
after `a`. -/
theorem rposHash_append {a s : List Nat} (h : ∀ b ∈ s, b ≠ 35) :
    rposHash (a ++ 35 :: s) = some a.length := by
  induction a with
  | nil => simp [rposHash, rposHash_eq_none h]
  | cons b bs ih => simp [rposHash, ih]

/-- Scanning past a block on which the predicate is everywhere false. -/
theorem posIdx_append {p : Nat → Bool} {v : List Nat} (r : List Nat)
    (h : ∀ b ∈ v, p b = false) :
    posIdx p (v ++ r) = (posIdx p r).map (· + v.length) := by
  induction v with
  | nil => simp
  | cons b bs ih =>
    have hb : p b = false := h b (List.mem_cons_self _ _)
    have ih2 := ih fun x hx => h x (List.mem_cons_of_mem _ hx)
    cases hr : posIdx p r with
    | none => simp [posIdx, hb, ih2, hr]
    | some i =>
      simp [posIdx, hb, ih2, hr]
      omega

/-! ## Claim theorems -/

/-- Claim C1: for every effective UID equal to 0, the POSIX `omst` returns
`UidRange::Zero` — whose `Permissions` image is `Absolute` — regardless of
the config file's contents or existence (so without needing the file),
and this path never produces an error. -/
theorem c1_uid_zero_is_absolute :
    ∀ file : Option (List Nat),
      omst 0 file = .ok UidRange.Zero ∧
      UidRange.Zero.toPermissions = Permissions.Absolute :=
  fun _ => ⟨rfl, rfl⟩

/-- Claim C2 counterexample: the config `"UID_MIN 1000\nUID_MAX 60000\n"`
parses to the well-formed range `[1000, 60000]`, and `0 < 1000`, yet the
classifier at UID 0 returns `Zero` (mapped to `Absolute`), not `BelowMin`
(mapped to `System`) as the claim states for every `u < min`. -/
theorem c2_uid_zero_counterexample :
    login_defs_uid_range (strBytes "UID_MIN 1000\nUID_MAX 60000\n") =
      .ok (1000, 60000) ∧
    1000 ≤ 60000 ∧ 0 < 1000 ∧
    omst 0 (some (strBytes "UID_MIN 1000\nUID_MAX 60000\n")) =
      .ok UidRange.Zero ∧
    omst 0 (some (strBytes "UID_MIN 1000\nUID_MAX 60000\n")) ≠
      .ok UidRange.BelowMin ∧
    (omst 0 (some (strBytes "UID_MIN 1000\nUID_MAX 60000\n"))).map
        UidRange.toPermissions ≠ .ok Permissions.System := by
  refine ⟨by decide, by decide, by decide, rfl, by decide, by decide⟩

/-- Claim C2 amended: for every nonzero UID `u` and every successfully
parsed range `[min, max]`, the POSIX classifier returns `BelowMin`
(`System`) when `u < min`, `InRange` (`User`) when `min ≤ u ≤ max`, and
`AboveMax` (`Guest`) when `u > max`; UID 0 is instead short-circuited to
`Zero` (`Absolute`). -/
theorem c2_range_classification (eff mn mx : Nat) (bytes : List Nat)
    (hne : eff ≠ 0)
    (hparse : login_defs_uid_range bytes = .ok (mn, mx))
    (hwf : mn ≤ mx) :
    (eff < mn → omst eff (some bytes) = .ok UidRange.BelowMin) ∧
    (mn ≤ eff → eff ≤ mx → omst eff (some bytes) = .ok UidRange.InRange) ∧
    (mx < eff → omst eff (some bytes) = .ok UidRange.AboveMax) ∧
    UidRange.BelowMin.toPermissions = Permissions.System ∧
    UidRange.InRange.toPermissions = Permissions.User ∧
    UidRange.AboveMax.toPermissions = Permissions.Guest := by
  have key : omst eff (some bytes) =
      .ok (if eff < mn then UidRange.BelowMin
           else if mx < eff then UidRange.AboveMax
           else UidRange.InRange) := by
    simp only [omst, if_neg hne, hparse]
  refine ⟨fun h1 => ?_, fun h1 h2 => ?_, fun h1 => ?_, rfl, rfl, rfl⟩
  · rw [key, if_pos h1]
  · rw [key, if_neg (by omega), if_neg (by omega)]
  · rw [key, if_neg (by omega), if_pos h1]

/-- Claim C2 amended, witness: UID 500 with the parsed range
`[1000, 60000]` classifies as `BelowMin`. -/
theorem c2_range_classification_witness :
    omst 500 (some (strBytes "UID_MIN 1000\nUID_MAX 60000\n")) =
      .ok UidRange.BelowMin :=
  (c2_range_classification 500 1000 60000
      (strBytes "UID_MIN 1000\nUID_MAX 60000\n")
      (by decide) (by decide) (by decide)).1 (by decide)

/-- Claim C3: the human-readable display forms are `"guest"`, `"user"`,
`"system"` — but `Absolute` displays as the misspelt `"aboslute"`, not
`"absolute"` as the claim states. -/
theorem c3_display_forms :
    Permissions.display .Guest = "guest" ∧
    Permissions.display .User = "user" ∧
    Permissions.display .System = "system" ∧
    Permissions.display .Absolute = "aboslute" ∧
    Permissions.display .Absolute ≠ "absolute" :=
  ⟨rfl, rfl, rfl, rfl, by decide⟩

/-- Claim C4: the derived comparison on `Permissions` orders by the
explicit discriminants (the symbolic bytes), giving
`Absolute < User < Guest < System` — not the claimed ascending-privilege
order `Guest < User < System < Absolute`, which fails already at
`Guest < User` and at `System < Absolute`. -/
theorem c4_derived_order :
    permLtB .Absolute .User = true ∧
    permLtB .User .Guest = true ∧
    permLtB .Guest .System = true ∧
    permLtB .Guest .User = false ∧
    permLtB .User .System = true ∧
    permLtB .System .Absolute = false := by
  decide

/-- Claim C5: a config in which `UID_MAX` never appears (though `UID_MIN`
parsed successfully) is reported as `InvalidDef` naming `UID_MAX`, and
symmetrically for `UID_MIN` — but with problem tag `Empty`, the very same
error value produced for a present-but-empty `UID_MAX` line, so the
`Missing` tag (which exists for this purpose) is never used and the two
situations are not distinguished. -/
theorem c5_missing_def_tagged_empty :
    login_defs_uid_range (strBytes "UID_MIN 1000\n") =
      .error (.InvalidDef .Max .Empty) ∧
    login_defs_uid_range (strBytes "UID_MIN 1000\nUID_MAX \n") =
      .error (.InvalidDef .Max .Empty) ∧
    login_defs_uid_range (strBytes "UID_MAX 60000\n") =
      .error (.InvalidDef .Min .Empty) ∧
    Problem.Missing ≠ Problem.Empty ∧
    Def.display .Max = "UID_MAX" ∧
    Def.display .Min = "UID_MIN" := by
  refine ⟨by decide, by decide, by decide, by decide, rfl, rfl⟩

/-- Unfolding `winOmst` after a successful username lookup and a
successful (allocating) `NetUserGetInfo`. -/
theorem winOmst_allocated (pv fs : Nat) :
    winOmst ⟨true, 0, pv, fs⟩ =
      if fs ≠ 0 then ⟨.aborted, 1⟩
      else ⟨if pv = USER_PRIV_ADMIN then .ok .Admin
            else if pv = USER_PRIV_GUEST then .ok .Guest
            else if pv = USER_PRIV_USER then .ok .User
            else .err (.InvalidPriv pv), 1⟩ := rfl

/-- Unfolding `winOmst` after a successful username lookup. -/
theorem winOmst_userNameOk (ns pv fs : Nat) :
    winOmst ⟨true, ns, pv, fs⟩ =
      if ns ≠ 0 then ⟨.err (.GetPriv .NetUserGetInfo), 0⟩
      else if fs ≠ 0 then ⟨.aborted, 1⟩
      else ⟨if pv = USER_PRIV_ADMIN then .ok .Admin
            else if pv = USER_PRIV_GUEST then .ok .Guest
            else if pv = USER_PRIV_USER then .ok .User
            else .err (.InvalidPriv pv), 1⟩ := rfl

/-- Claim C9: on the Windows path, whenever `NetUserGetInfo` succeeds
(allocating the user-info record), `NetApiBufferFree` is invoked on the
record exactly once on every exit path — success, invalid-privilege
error, and after a failing free; a failing free aborts the process
instead of returning an error, and a succeeding free never aborts. On
the early-return paths where no record was allocated, no free occurs. -/
theorem c9_record_freed_once (un : Bool) (ns pv fs : Nat) :
    (un = true → ns = 0 →
      (winOmst ⟨un, ns, pv, fs⟩).freeCalls = 1 ∧
      (fs ≠ 0 → (winOmst ⟨un, ns, pv, fs⟩).outcome = .aborted) ∧
      (fs = 0 → (winOmst ⟨un, ns, pv, fs⟩).outcome ≠ .aborted)) ∧
    ((un = false ∨ ns ≠ 0) → (winOmst ⟨un, ns, pv, fs⟩).freeCalls = 0) := by
  refine ⟨fun hun hns => ?_, fun h => ?_⟩
  · subst hun; subst hns
    rw [winOmst_allocated]
    refine ⟨?_, fun hfs => ?_, fun hfs => ?_⟩
    · split <;> rfl
    · rw [if_pos hfs]
    · rw [if_neg (fun hc => hc hfs)]
      split
      · simp
      · split
        · simp
        · split <;> simp
  · rcases h with hun | hns2
    · subst hun; rfl
    · cases un
      · rfl
      · rw [winOmst_userNameOk, if_pos hns2]

/-- Claim C9 witness: with a successful username lookup, a successful
`NetUserGetInfo` returning privilege code 2 (`USER_PRIV_ADMIN`), and a
succeeding free, the record is freed exactly once and the run is not
aborted. -/
theorem c9_record_freed_once_witness :
    (winOmst ⟨true, 0, 2, 0⟩).freeCalls = 1 ∧
    (winOmst ⟨true, 0, 2, 0⟩).outcome ≠ .aborted :=
  ⟨((c9_record_freed_once true 0 2 0).1 rfl rfl).1,
   ((c9_record_freed_once true 0 2 0).1 rfl rfl).2.2 rfl⟩

/-- Claim C10: `ResultExt::byte` returns the tier's symbolic byte on `Ok`
and `b'?' = 63` on every error, and 63 differs from all four tier bytes
`b'%' = 37`, `b'$' = 36`, `b'@' = 64`, `b'#' = 35`. -/
theorem c10_result_byte :
    (∀ p : Permissions, ResultExt.byte (E := Error) (.ok p) = p.byte) ∧
    (∀ e : Error, ResultExt.byte (.error e) = 63) ∧
    (∀ p : Permissions, p.byte ≠ 63) ∧
    Permissions.byte .Guest = 37 ∧
    Permissions.byte .User = 36 ∧
    Permissions.byte .System = 64 ∧
    Permissions.byte .Absolute = 35 :=
  ⟨fun _ => rfl, fun _ => rfl, fun p => by cases p <;> decide,
   rfl, rfl, rfl, rfl⟩

/-- Key bytes of a definition: `b"UID_MIN"` / `b"UID_MAX"`. -/
def Def.keyBytes : Def → List Nat
  | .Min => [85, 73, 68, 95, 77, 73, 78]
  | .Max => [85, 73, 68, 95, 77, 65, 88]

/-- The key bytes are exactly the bytes of the definition's name. -/
theorem keyBytes_eq_strBytes : ∀ d : Def, d.keyBytes = strBytes d.display := by
  intro d
  cases d <;> decide

/-- Claim C6: the parser discards everything from the last `'#'` on a line
onward — for any prefix `a` and hash-free suffix `s`, processing
`a ++ '#' :: s` is processing `a` with no comment stripping; in
particular `"UID_MIN 1000 # comment"` and `"UID_MIN 1000#5"` both define
`UID_MIN = 1000` from any parser state. -/
theorem c6_comment_strip :
    (∀ (st : St) (a s : List Nat), (∀ b ∈ s, b ≠ 35) →
      processLine st (a ++ 35 :: s) = processStripped st a) ∧
    (∀ st : St, processLine st (strBytes "UID_MIN 1000 # comment\n") =
      .ok { st with min? := some 1000 }) ∧
    (∀ st : St, processLine st (strBytes "UID_MIN 1000#5\n") =
      .ok { st with min? := some 1000 }) := by
  refine ⟨fun st a s hs => ?_, fun st => rfl, fun st => rfl⟩
  unfold processLine
  rw [rposHash_append hs]
  show processStripped st (List.take a.length (a ++ 35 :: s)) = processStripped st a
  rw [List.take_left]

/-- Claim C6 witness: stripping the comment of
`"UID_MIN 1000 " ++ "#" ++ " comment"` leaves `"UID_MIN 1000 "`. -/
theorem c6_comment_strip_witness :
    processLine ⟨none, none⟩
        (strBytes "UID_MIN 1000 " ++ 35 :: strBytes " comment") =
      processStripped ⟨none, none⟩ (strBytes "UID_MIN 1000 ") :=
  c6_comment_strip.1 ⟨none, none⟩ (strBytes "UID_MIN 1000 ")
    (strBytes " comment") (by decide)

/-- Processing a line `KEY ++ ' ' ++ v ++ '\\n'` whose value token `v` is
nonempty, whitespace-free and hash-free reaches the `atoi` call on
exactly the token `v`. -/
theorem processLine_keyval (st : St) (d : Def) (v : List Nat)
    (hne : v ≠ []) (hv : ∀ b ∈ v, isWsB b = false ∧ b ≠ 35) :
    processLine st (d.keyBytes ++ (32 :: (v ++ [10]))) =
      match atoi v with
      | some id => .ok (updateSt st d id)
      | none => .error (.InvalidDef d (.Invalid v)) := by
  cases v with
  | nil => exact absurd rfl hne
  | cons b0 bs =>
    have hb0 : isWsB b0 = false := (hv b0 (List.mem_cons_self _ _)).1
    have hvws : ∀ b ∈ b0 :: bs, isWsB b = false := fun b hb => (hv b hb).1
    have hnohash :
        rposHash (d.keyBytes ++ (32 :: ((b0 :: bs) ++ [10]))) = none := by
      apply rposHash_eq_none
      intro b hb
      rcases List.mem_append.1 hb with hk | hrest
      · cases d with
        | Min => exact (by decide : ∀ b ∈ Def.keyBytes Def.Min, b ≠ 35) b hk
        | Max => exact (by decide : ∀ b ∈ Def.keyBytes Def.Max, b ≠ 35) b hk
      · rcases List.mem_cons.1 hrest with rfl | hv2
        · omega
        · rcases List.mem_append.1 hv2 with hvv | h10
          · exact (hv b hvv).2
          · simp at h10
            omega
    have t1 : ∀ e : Def,
        posIdx (fun b => !isWsB b) (e.keyBytes ++ (32 :: ((b0 :: bs) ++ [10]))) =
          some 0 := by
      intro e; cases e <;> rfl
    have t2 : ∀ e : Def,
        posIdx isWsB (e.keyBytes ++ (32 :: ((b0 :: bs) ++ [10]))) = some 7 := by
      intro e; cases e <;> rfl
    have t3 : ∀ e : Def,
        List.take 7 (e.keyBytes ++ (32 :: ((b0 :: bs) ++ [10]))) =
          e.keyBytes := by
      intro e; cases e <;> rfl
    have t4 : ∀ e : Def,
        List.drop 7 (e.keyBytes ++ (32 :: ((b0 :: bs) ++ [10]))) =
          32 :: ((b0 :: bs) ++ [10]) := by
      intro e; cases e <;> rfl
    have t5 : ∀ e : Def, keyOf e.keyBytes = some e := by
      intro e; cases e <;> rfl
    have e32 : isWsB 32 = true := rfl
    have e10 : isWsB 10 = true := rfl
    have t6 : posIdx (fun b => !isWsB b) ((32 : Nat) :: ((b0 :: bs) ++ [10])) =
        some 1 := by
      simp [posIdx, e32, hb0]
    have t7 : List.drop 1 ((32 : Nat) :: ((b0 :: bs) ++ [10])) =
        (b0 :: bs) ++ [10] := rfl
    have t8 : posIdx isWsB ((b0 :: bs) ++ [10]) = some (b0 :: bs).length := by
      rw [posIdx_append _ hvws]
      simp [posIdx, e10]
    have t9 : List.take (b0 :: bs).length ((b0 :: bs) ++ [10]) = b0 :: bs :=
      List.take_left _ _
    simp only [processLine, hnohash, processStripped, t1, List.drop_zero, t2,
      t3, t4, t5, t6, t7, t8, t9]

/-- Claim C7: for any line whose key is `UID_MIN` or `UID_MAX` and whose
nonempty, whitespace-free, hash-free value token fails `atoi` (non-numeric
or overflowing the UID domain), the parser stops with an
invalid-definition error naming that definition and carrying exactly the
raw value bytes; in particular the config `"UID_MIN abc\n"` yields
`InvalidDef UID_MIN (Invalid "abc")`. -/
theorem c7_invalid_value :
    (∀ (st : St) (d : Def) (v : List Nat),
      v ≠ [] →
      (∀ b ∈ v, isWsB b = false ∧ b ≠ 35) →
      atoi v = none →
      processLine st (d.keyBytes ++ (32 :: (v ++ [10]))) =
        .error (.InvalidDef d (.Invalid v))) ∧
    login_defs_uid_range (strBytes "UID_MIN abc\n") =
      .error (.InvalidDef .Min (.Invalid (strBytes "abc"))) := by
  refine ⟨fun st d v hne hv hatoi => ?_, by decide⟩
  rw [processLine_keyval st d v hne hv, hatoi]

/-- Claim C7 witness: the line `"UID_MIN abc\n"` (built from the key
bytes, a space, the token `"abc"` and a newline) is rejected with the raw
bytes `"abc"`. -/
theorem c7_invalid_value_witness :
    processLine ⟨none, none⟩
        (Def.keyBytes .Min ++ (32 :: (strBytes "abc" ++ [10]))) =
      .error (.InvalidDef .Min (.Invalid (strBytes "abc"))) :=
  c7_invalid_value.1 ⟨none, none⟩ .Min (strBytes "abc") (by decide)
    (by decide) (by decide)

/-- `DefinesLine l d n`: processing line `l` from any parser state
succeeds and updates definition `d` to value `n`. -/
def DefinesLine (l : List Nat) (d : Def) (n : Nat) : Prop :=
  ∀ st : St, processLine st l = .ok (updateSt st d n)

/-- Claim C8: duplicate keys are last-write-wins with no duplicate-key
error — a config of two `UID_MIN` lines and a `UID_MAX` line (in either
key's case) succeeds with the later value; for keys appearing once the
result is independent of the relative order of the `UID_MIN` and
`UID_MAX` lines; concretely,
`"UID_MIN 1000\nUID_MIN 2000\nUID_MAX 60000\n"` parses to
`(2000, 60000)`. -/
theorem c8_last_write_wins :
    (∀ (l1 l2 l3 : List Nat) (a1 a2 b : Nat),
      DefinesLine l1 .Min a1 → DefinesLine l2 .Min a2 →
      DefinesLine l3 .Max b →
      runLines ⟨none, none⟩ [l1, l2, l3] = .ok (a2, b)) ∧
    (∀ (l1 l2 l3 : List Nat) (a b1 b2 : Nat),
      DefinesLine l1 .Min a → DefinesLine l2 .Max b1 →
      DefinesLine l3 .Max b2 →
      runLines ⟨none, none⟩ [l1, l2, l3] = .ok (a, b2)) ∧
    (∀ (l1 l2 : List Nat) (a b : Nat),
      DefinesLine l1 .Min a → DefinesLine l2 .Max b →
      runLines ⟨none, none⟩ [l1, l2] = .ok (a, b) ∧
      runLines ⟨none, none⟩ [l2, l1] = .ok (a, b)) ∧
    login_defs_uid_range
        (strBytes "UID_MIN 1000\nUID_MIN 2000\nUID_MAX 60000\n") =
      .ok (2000, 60000) := by
  refine ⟨fun l1 l2 l3 a1 a2 b h1 h2 h3 => ?_,
          fun l1 l2 l3 a b1 b2 h1 h2 h3 => ?_,
          fun l1 l2 a b h1 h2 => ⟨?_, ?_⟩, by decide⟩
  · have e1 : ∀ st : St, processLine st l1 = .ok (updateSt st .Min a1) := h1
    have e2 : ∀ st : St, processLine st l2 = .ok (updateSt st .Min a2) := h2
    have e3 : ∀ st : St, processLine st l3 = .ok (updateSt st .Max b) := h3
    simp [runLines, updateSt, e1, e2, e3]
  · have e1 : ∀ st : St, processLine st l1 = .ok (updateSt st .Min a) := h1
    have e2 : ∀ st : St, processLine st l2 = .ok (updateSt st .Max b1) := h2
    have e3 : ∀ st : St, processLine st l3 = .ok (updateSt st .Max b2) := h3
    simp [runLines, updateSt, e1, e2, e3]
  · have e1 : ∀ st : St, processLine st l1 = .ok (updateSt st .Min a) := h1
    have e2 : ∀ st : St, processLine st l2 = .ok (updateSt st .Max b) := h2
    simp [runLines, updateSt, e1, e2]
  · have e1 : ∀ st : St, processLine st l1 = .ok (updateSt st .Min a) := h1
    have e2 : ∀ st : St, processLine st l2 = .ok (updateSt st .Max b) := h2
    simp [runLines, updateSt, e1, e2]

/-- Claim C8 witness: two `UID_MIN` lines and one `UID_MAX` line parse to
the second `UID_MIN` value with no error. -/
theorem c8_last_write_wins_witness :
    runLines ⟨none, none⟩
        [strBytes "UID_MIN 1000\n", strBytes "UID_MIN 2000\n",
         strBytes "UID_MAX 60000\n"] = .ok (2000, 60000) :=
  c8_last_write_wins.1 _ _ _ 1000 2000 60000
    (fun _ => rfl) (fun _ => rfl) (fun _ => rfl)
